import Mathlib

/-!
Verification of the two tutorial programs of this repository:
`src/tutorials/tmva/TMVACrossEvaluation.C` and `src/tutorials/v7/simple.cxx`.

`Double_t` values are modelled as rationals (every numeric literal and every
integer appearing in these claims is represented exactly by a double in its
range, so the rational model is faithful on the inputs considered).
C++ `int(...)` conversion is truncation toward zero; C++ `%` on integers is
truncated remainder, i.e. `Int.tmod`.
-/

set_option maxRecDepth 100000

namespace RootTutorials

/-- Truncation toward zero of a rational, the semantics of the C++ cast
`int(x)` (and of `TFormula`'s `int(...)`) on a finite in-range value. -/
def cppInt (q : ℚ) : ℤ := q.num.tdiv (q.den : ℤ)

/-- `TFormula` expressions, restricted to the grammar used by the split
expression `"int(fabs([eventID]))%int([NumFolds])"` of
`TMVACrossEvaluation.C` line 165: numeric literals, field accesses
`[name]` (variables and spectators of the dataloader), the special
accessor `[NumFolds]`, `fabs`, `int(...)` and the integer remainder `%`. -/
inductive FExpr where
  | num (q : ℚ)
  | field (name : String)
  | numFolds
  | fabs (a : FExpr)
  | intCast (a : FExpr)
  | mod (a b : FExpr)
deriving DecidableEq, Repr

/-- Evaluation of a `TFormula` expression on one event.  `env` gives the
value of each dataloader field (variable or spectator) for the event,
`k` is the configured number of folds.  `fabs` is absolute value,
`int(...)` truncates toward zero, and `%` is C++ truncated integer
remainder applied after truncating both operands. -/
def evalF (env : String → ℚ) (k : ℕ) : FExpr → ℚ
  | .num q => q
  | .field name => env name
  | .numFolds => (k : ℚ)
  | .fabs a => |evalF env k a|
  | .intCast a => ((cppInt (evalF env k a) : ℤ) : ℚ)
  | .mod a b => (((cppInt (evalF env k a)).tmod (cppInt (evalF env k b)) : ℤ) : ℚ)

/-- The split expression the program configures
(`TMVACrossEvaluation.C` line 165):
`"int(fabs([eventID]))%int([NumFolds])"`. -/
def splitExpr : FExpr :=
  .mod (.intCast (.fabs (.field "eventID"))) (.intCast .numFolds)

/-- The fields `[name]` referenced by an expression; the special accessor
`[NumFolds]` is the fold count, not a dataloader field. -/
def referencedFields : FExpr → List String
  | .num _ => []
  | .field name => [name]
  | .numFolds => []
  | .fabs a => referencedFields a
  | .intCast a => referencedFields a
  | .mod a b => referencedFields a ++ referencedFields b

/-- The environment of an event whose `eventID` spectator holds `e`
(all other fields irrelevant to the split expression are 0). -/
def envFor (e : ℤ) : String → ℚ := fun name => if name = "eventID" then (e : ℚ) else 0

/-- Fold index the program assigns to the event identifier `e` with `k`
folds: the split expression evaluated on the event. -/
def foldOf (e : ℤ) (k : ℕ) : ℚ := evalF (envFor e) k splitExpr

/-- The arithmetic formula as the spec writes it:
`int(fabs(eventID)) % numFolds`, read as mathematics (absolute value of an
integer, mathematical remainder by the positive fold count). -/
def specFoldExpr (e : ℤ) (k : ℕ) : ℤ := (e.natAbs : ℤ) % (k : ℤ)

/-- One entry of the toy tree produced by `genTree`: branches `x` (`/D`),
`y` (`/D`) and `eventID` (`/I`). -/
structure Entry where
  x : ℚ
  y : ℚ
  eventID : ℤ
deriving DecidableEq, Repr

/-- Loop body of `genTree` (`TMVACrossEvaluation.C` lines 90-98), recursing
on the number of remaining iterations.  `gaus` is the stream of draws of
`rng.Gaus(offset, scale)` (the Mersenne-twister floating-point sampler is
outside the embedding, so the draws are an arbitrary stream; the loop
consumes two per iteration, first `x` then `y`).  `n` is the loop counter
and `eventID` the running identifier, pre-incremented before each fill. -/
def genTreeAux (gaus : ℕ → ℚ) : ℕ → ℕ → ℤ → List Entry
  | 0, _, _ => []
  | rem + 1, n, eventID =>
      let x := gaus (2 * n)
      let y := gaus (2 * n + 1)
      let eventID' := eventID + 1
      { x := x, y := y, eventID := eventID' } :: genTreeAux gaus rem (n + 1) eventID'

/-- `genTree(nPoints, offset, scale, seed)` of `TMVACrossEvaluation.C`
lines 77-103: fills `nPoints` entries with Gaussian `x`, `y` (the draw
stream `gaus` abstracts `TRandom3(seed).Gaus(offset, scale)`) and the
pre-incremented `eventID`, starting from `eventID = 0`. -/
def genTree (gaus : ℕ → ℚ) (nPoints : ℕ) : List Entry :=
  genTreeAux gaus nPoints 0 0

/-- The declarations accumulated by a `TMVA::DataLoader`: the dataset name,
the training variables and the spectators, each a name with its type
character, in declaration order. -/
structure DataLoader where
  dsName : String
  trainingVariables : List (String × Char)
  spectators : List (String × Char)
deriving DecidableEq, Repr

/-- `dataloader->AddVariable(name, vtype)`. -/
def DataLoader.addVariable (dl : DataLoader) (name : String) (vtype : Char) : DataLoader :=
  { dl with trainingVariables := dl.trainingVariables ++ [(name, vtype)] }

/-- `dataloader->AddSpectator(name, vtype)`. -/
def DataLoader.addSpectator (dl : DataLoader) (name : String) (vtype : Char) : DataLoader :=
  { dl with spectators := dl.spectators ++ [(name, vtype)] }

/-- The dataloader built by `TMVACrossEvaluation.C` lines 128-139:
`new TMVA::DataLoader("dataset")`, then `AddVariable("x", 'F')`,
`AddVariable("y", 'F')`, `AddSpectator("eventID", 'I')`, in that order. -/
def dataloader : DataLoader :=
  ((({ dsName := "dataset", trainingVariables := [], spectators := [] } : DataLoader).addVariable
      "x" 'F').addVariable "y" 'F').addSpectator "eventID" 'I'

/-- `UInt_t numFolds = 2;` of `TMVACrossEvaluation.C` line 163. -/
def numFolds : ℕ := 2

/-- The observable actions the two tutorial programs perform, in the order
the source performs them.  The constructors `spawnThread` and
`registerAsyncCallback` stand for the concurrency primitives neither
program uses. -/
inductive Act where
  | toolsInstance
  | genData (label : String) (nPoints : ℕ)
  | fileRecreate (name : String)
  | makeDataLoader (name : String)
  | declareVariable (name : String)
  | declareSpectator (name : String)
  | attachSignalTree
  | attachBackgroundTree
  | prepareSplit
  | makeCrossValidation (k : ℕ) (split : FExpr)
  | bookMethod (name : String)
  | evaluateFolds
  | printRocSummary
  | fileWrite (objName : String)
  | fileClose
  | launchGui (name : String)
  | createHist (nxBins : ℕ) (xlo xhi : ℚ) (yEdges : List ℚ)
  | fillHist (x y w : ℚ)
  | fitHist (initPars : List ℚ)
  | spawnThread
  | registerAsyncCallback
deriving DecidableEq, Repr

/-- The action trace of `TMVACrossEvaluation()` (`TMVACrossEvaluation.C`
lines 105-226), in source order; the GUI is launched only when ROOT is not
in batch mode (line 219). -/
def tmvaTrace (batch : Bool) : List Act :=
  [Act.toolsInstance,
   Act.genData "signal" 1000,
   Act.genData "background" 1000,
   Act.fileRecreate "TMVA.root",
   Act.makeDataLoader "dataset",
   Act.declareVariable "x",
   Act.declareVariable "y",
   Act.declareSpectator "eventID",
   Act.attachSignalTree,
   Act.attachBackgroundTree,
   Act.prepareSplit,
   Act.makeCrossValidation numFolds splitExpr,
   Act.bookMethod "BDTG",
   Act.evaluateFolds,
   Act.printRocSummary,
   Act.fileClose]
  ++ (if batch then [] else [Act.launchGui "TMVA.root"])

/-- The action trace of `simple()` (`simple.cxx` lines 19-45), in source
order: two histogram constructions (`histFromVars` and `hist`), one fill of
weight 1 at `(0.01, 1.02)`, one fit with the two initial parameters
`{0., 1.}`, then `TFile::Recreate("hist.root")` and the write of
`"TheHist"`. -/
def simpleTrace : List Act :=
  [Act.createHist 100 0 1 [0, 1, 2, 3, 10],
   Act.createHist 100 0 1 [0, 1, 2, 3, 10],
   Act.fillHist (mkRat 1 100) (mkRat 51 50) 1,
   Act.fitHist [0, 1],
   Act.fileRecreate "hist.root",
   Act.fileWrite "TheHist"]

/-- Names of the files a trace creates for writing (`RECREATE` opens). -/
def outputFiles (tr : List Act) : List String :=
  tr.filterMap fun a => match a with
    | .fileRecreate name => some name
    | _ => none

def Act.isCreateHist : Act → Bool
  | .createHist _ _ _ _ => true
  | _ => false

def Act.isFillHist : Act → Bool
  | .fillHist _ _ _ => true
  | _ => false

def Act.isFitHist : Act → Bool
  | .fitHist _ => true
  | _ => false

def Act.isFileWrite : Act → Bool
  | .fileWrite _ => true
  | _ => false

/-- Does the action start a thread or register an asynchronous callback? -/
def Act.isConcurrencyPrimitive : Act → Bool
  | .spawnThread => true
  | .registerAsyncCallback => true
  | _ => false

/-- Positions (0-based) in a trace at which an action satisfying `p`
occurs, in order. -/
def idxsOf (p : Act → Bool) (tr : List Act) : List ℕ :=
  (tr.enum.filter (fun pr => p pr.2)).map Prod.fst

-- Basic evaluation checks (concrete sanity examples).

example : foldOf 7 2 = 1 := by decide
example : foldOf (-7) 2 = 1 := by decide
example : foldOf 10 2 = 0 := by decide
example : (genTree (fun _ => 0) 3).map Entry.eventID = [1, 2, 3] := by decide

lemma cppInt_intCast (n : ℤ) : cppInt ((n : ℤ) : ℚ) = n := by
  simp [cppInt, Rat.num_intCast, Rat.den_intCast, Int.tdiv_one]

lemma cppInt_natCast (k : ℕ) : cppInt ((k : ℕ) : ℚ) = (k : ℤ) := by
  have h : ((k : ℕ) : ℚ) = (((k : ℕ) : ℤ) : ℚ) := by push_cast; ring
  rw [h, cppInt_intCast]

/-- Closed form of the split expression: on an event whose `eventID` field
holds the integer `e`, with `k` folds, it evaluates to `|e| tmod k`. -/
lemma evalF_splitExpr (env : String → ℚ) (k : ℕ) (e : ℤ)
    (he : env "eventID" = (e : ℚ)) :
    evalF env k splitExpr = (((e.natAbs : ℤ).tmod (k : ℤ) : ℤ) : ℚ) := by
  have habs : |((e : ℤ) : ℚ)| = (((|e| : ℤ) : ℤ) : ℚ) := by push_cast; ring
  simp only [splitExpr, evalF, he, habs, cppInt_intCast, cppInt_natCast,
    Int.abs_eq_natAbs]

lemma foldOf_eq_tmod (e : ℤ) (k : ℕ) :
    foldOf e k = (((e.natAbs : ℤ).tmod (k : ℤ) : ℤ) : ℚ) := by
  exact evalF_splitExpr (envFor e) k e (by simp [envFor])

lemma foldOf_of_nonneg (e : ℤ) (he : 0 ≤ e) (k : ℕ) :
    foldOf e k = ((e % (k : ℤ) : ℤ) : ℚ) := by
  rw [foldOf_eq_tmod, Int.natAbs_of_nonneg he, Int.tmod_eq_emod he (by positivity)]

lemma genTreeAux_length (gaus : ℕ → ℚ) :
    ∀ (rem n : ℕ) (eid : ℤ), (genTreeAux gaus rem n eid).length = rem
  | 0, _, _ => rfl
  | rem + 1, n, eid => by
      simp [genTreeAux, genTreeAux_length gaus rem (n + 1) (eid + 1)]

lemma genTreeAux_eventIDs (gaus : ℕ → ℚ) :
    ∀ (rem n : ℕ) (eid : ℤ),
      (genTreeAux gaus rem n eid).map Entry.eventID
        = (List.range rem).map (fun i : ℕ => eid + (i : ℤ) + 1)
  | 0, _, _ => by simp [genTreeAux]
  | rem + 1, n, eid => by
      rw [List.range_succ_eq_map]
      simp only [genTreeAux, List.map_cons, List.map_map]
      rw [genTreeAux_eventIDs gaus rem (n + 1) (eid + 1)]
      refine congrArg₂ List.cons (by push_cast; ring) ?_
      apply List.map_congr_left
      intro i _
      simp only [Function.comp]
      push_cast
      ring

lemma genTree_eventIDs (gaus : ℕ → ℚ) (nPoints : ℕ) :
    (genTree gaus nPoints).map Entry.eventID
      = (List.range nPoints).map (fun i : ℕ => (i : ℤ) + 1) := by
  rw [genTree, genTreeAux_eventIDs gaus nPoints 0 0]
  apply List.map_congr_left
  intro i _
  ring

lemma foldOf_succ_natCast (i : ℕ) :
    foldOf ((i : ℤ) + 1) numFolds = (((i + 1) % 2 : ℕ) : ℚ) := by
  have h : ((i : ℤ) + 1) = ((i + 1 : ℕ) : ℤ) := by push_cast; ring
  rw [h, foldOf_of_nonneg _ (by positivity)]
  rw [show ((numFolds : ℤ)) = ((2 : ℕ) : ℤ) from rfl]
  rw [← Int.natCast_mod]
  norm_cast

lemma fold_counts_tree (gaus : ℕ → ℚ) :
    ((genTree gaus 1000).map Entry.eventID).countP (fun e => foldOf e numFolds = 0) = 500
  ∧ ((genTree gaus 1000).map Entry.eventID).countP (fun e => foldOf e numFolds = 1) = 500
  ∧ ((genTree gaus 1000).map Entry.eventID).all
      (fun e => foldOf e numFolds = if e % 2 = 1 then 1 else 0) = true := by
  have hids := genTree_eventIDs gaus 1000
  refine ⟨?_, ?_, ?_⟩
  · rw [hids, List.countP_map]
    have hc : List.countP
          ((fun e => decide (foldOf e numFolds = 0)) ∘ (fun i : ℕ => (i : ℤ) + 1))
          (List.range 1000)
        = List.countP (fun i => decide ((i + 1) % 2 = 0)) (List.range 1000) := by
      apply List.countP_congr
      intro i _
      simp [Function.comp, foldOf_succ_natCast i, Nat.cast_eq_zero]
    rw [hc]
    decide
  · rw [hids, List.countP_map]
    have hc : List.countP
          ((fun e => decide (foldOf e numFolds = 1)) ∘ (fun i : ℕ => (i : ℤ) + 1))
          (List.range 1000)
        = List.countP (fun i => decide ((i + 1) % 2 = 1)) (List.range 1000) := by
      apply List.countP_congr
      intro i _
      simp [Function.comp, foldOf_succ_natCast i, Nat.cast_eq_one]
    rw [hc]
    decide
  · rw [hids, List.all_eq_true]
    intro e he
    obtain ⟨i, _, rfl⟩ := List.mem_map.mp he
    simp only [decide_eq_true_eq]
    rw [foldOf_succ_natCast i]
    rcases Nat.mod_two_eq_zero_or_one (i + 1) with h | h
    · rw [if_neg (by omega), h]
      norm_num
    · rw [if_pos (by omega), h]
      norm_num

end RootTutorials

namespace RootTutorials

/-- C1: Fold assignment is deterministic and depends only on the event
identifier and the number of folds: evaluating the split expression
`"int(fabs([eventID]))%int([NumFolds])"` on two events whose `eventID`
fields agree, with the same fold count `k`, produces the same fold index,
whatever the events' other fields hold. -/
theorem split_deterministic (env1 env2 : String → ℚ) (k : ℕ)
    (h : env1 "eventID" = env2 "eventID") :
    evalF env1 k splitExpr = evalF env2 k splitExpr := by
  simp only [splitExpr, evalF, h]

/-- Witness for C1: two concrete events sharing `eventID = 5` but differing
in the training variable `y` receive the same fold; both sides evaluate. -/
theorem split_deterministic_witness :
    evalF (envFor 5) 2 splitExpr
      = evalF (fun name => if name = "y" then 3 else envFor 5 name) 2 splitExpr :=
  split_deterministic (envFor 5) (fun name => if name = "y" then 3 else envFor 5 name) 2
    (by decide)

/-- C2: The split expression maps every integer event identifier to a valid
fold index: for every `e : ℤ` and every fold count `k ≥ 1` its value is a
natural number `i` with `i < k`. -/
theorem split_in_range (e : ℤ) (k : ℕ) (hk : 1 ≤ k) :
    ∃ i : ℕ, i < k ∧ foldOf e k = (i : ℚ) := by
  refine ⟨e.natAbs % k, Nat.mod_lt _ (by omega), ?_⟩
  have h : (e.natAbs : ℤ).tmod (k : ℤ) = ((e.natAbs % k : ℕ) : ℤ) :=
    (Int.ofNat_tmod _ _).symm
  rw [foldOf_eq_tmod, h]
  norm_cast

/-- Witness for C2: the identifier `-7` with `3` folds lands in a fold
index below 3. -/
theorem split_in_range_witness : ∃ i : ℕ, i < 3 ∧ foldOf (-7) 3 = (i : ℚ) :=
  split_in_range (-7) 3 (by decide)

/-- C3: The formula the spec writes, `int(fabs(eventID)) % numFolds` read as
mathematics, agrees with the split expression the program configures, for
every integer identifier and every positive fold count. -/
theorem spec_split_matches_code (e : ℤ) (k : ℕ) (hk : 0 < k) :
    (specFoldExpr e k : ℚ) = foldOf e k := by
  rw [foldOf_eq_tmod, specFoldExpr]
  rw [Int.tmod_eq_emod (by positivity) (by positivity)]

/-- Witness for C3: at identifier `-7` and `2` folds the spec formula and
the configured split expression coincide. -/
theorem spec_split_matches_code_witness : (specFoldExpr (-7) 2 : ℚ) = foldOf (-7) 2 :=
  spec_split_matches_code (-7) 2 (by decide)

/-- C4: The dataloader declares exactly the training variables `x` and `y`,
declares `eventID` only as a spectator, and `eventID` is the sole
dataloader field the split expression references. -/
theorem eventID_spectator_only :
    dataloader.trainingVariables.map Prod.fst = ["x", "y"]
  ∧ dataloader.spectators.map Prod.fst = ["eventID"]
  ∧ referencedFields splitExpr = ["eventID"] := by
  decide

/-- C5: `genTree` produces exactly `nPoints` entries, for every number of
points and every stream of Gaussian draws (each entry is an `Entry`, i.e.
carries the branches `x`, `y` and `eventID`). -/
theorem genTree_length (gaus : ℕ → ℚ) (nPoints : ℕ) :
    (genTree gaus nPoints).length = nPoints :=
  genTreeAux_length gaus nPoints 0 0

/-- C6: `simple()` performs the histogram workflow in order: every
histogram construction precedes the single fill (weight 1 at coordinate
`(0.01, 1.02)`), the fill precedes the fit (whose function takes the two
initial parameters `{0., 1.}`), and the fit precedes the write of the
histogram to the file. -/
theorem simple_workflow_order :
    idxsOf Act.isCreateHist simpleTrace = [0, 1]
  ∧ idxsOf Act.isFillHist simpleTrace = [2]
  ∧ idxsOf Act.isFitHist simpleTrace = [3]
  ∧ idxsOf Act.isFileWrite simpleTrace = [5]
  ∧ simpleTrace.filter Act.isFillHist = [Act.fillHist (mkRat 1 100) (mkRat 51 50) 1]
  ∧ simpleTrace.filter Act.isFitHist = [Act.fitHist [0, 1]] := by
  decide

/-- C7: Each program creates exactly one output file: `TMVACrossEvaluation`
creates `"TMVA.root"` (in batch mode and in GUI mode alike) and `simple`
creates `"hist.root"`. -/
theorem one_output_file_each :
    outputFiles (tmvaTrace true) = ["TMVA.root"]
  ∧ outputFiles (tmvaTrace false) = ["TMVA.root"]
  ∧ outputFiles simpleTrace = ["hist.root"] := by
  decide

/-- C8: Neither program's trace contains a thread creation or an
asynchronous-callback registration (in batch mode and in GUI mode alike);
the traces are sequences, every action completing before the next. -/
theorem no_concurrency :
    (tmvaTrace true).filter Act.isConcurrencyPrimitive = []
  ∧ (tmvaTrace false).filter Act.isConcurrencyPrimitive = []
  ∧ simpleTrace.filter Act.isConcurrencyPrimitive = [] := by
  decide

/-- C9: The `eventID` values stored by `genTree` are exactly
`1, 2, ..., nPoints` in order (the identifier is pre-incremented before
each fill), so no entry carries `eventID 0`. -/
theorem genTree_eventIDs_one_to_n (gaus : ℕ → ℚ) (nPoints : ℕ) :
    (genTree gaus nPoints).map Entry.eventID
        = (List.range nPoints).map (fun i : ℕ => (i : ℤ) + 1)
  ∧ (genTree gaus nPoints).all (fun ent => ent.eventID ≠ 0) = true := by
  refine ⟨genTree_eventIDs gaus nPoints, ?_⟩
  rw [List.all_eq_true]
  intro ent hent
  have hmem : ent.eventID ∈ (genTree gaus nPoints).map Entry.eventID :=
    List.mem_map_of_mem _ hent
  rw [genTree_eventIDs gaus nPoints] at hmem
  obtain ⟨i, _, hi⟩ := List.mem_map.mp hmem
  simp only [decide_eq_true_eq]
  omega

/-- C10: With `numFolds = 2` and the identifiers `1..1000` each tree
carries, the split expression sends exactly 500 events of the signal tree
and exactly 500 events of the background tree to each fold: odd
identifiers to fold 1, even identifiers to fold 0, whatever Gaussian
draws fill the trees' `x` and `y` branches. -/
theorem folds_balanced_500 (gausS gausB : ℕ → ℚ) :
    (((genTree gausS 1000).map Entry.eventID).countP (fun e => foldOf e numFolds = 0) = 500
   ∧ ((genTree gausS 1000).map Entry.eventID).countP (fun e => foldOf e numFolds = 1) = 500)
  ∧ (((genTree gausB 1000).map Entry.eventID).countP (fun e => foldOf e numFolds = 0) = 500
   ∧ ((genTree gausB 1000).map Entry.eventID).countP (fun e => foldOf e numFolds = 1) = 500)
  ∧ ((genTree gausS 1000).map Entry.eventID).all
        (fun e => foldOf e numFolds = if e % 2 = 1 then 1 else 0) = true
  ∧ ((genTree gausB 1000).map Entry.eventID).all
        (fun e => foldOf e numFolds = if e % 2 = 1 then 1 else 0) = true := by
  obtain ⟨hs0, hs1, hsp⟩ := fold_counts_tree gausS
  obtain ⟨hb0, hb1, hbp⟩ := fold_counts_tree gausB
  exact ⟨⟨hs0, hs1⟩, ⟨hb0, hb1⟩, hsp, hbp⟩

end RootTutorials
